import Mathlib

/-!
Verification of the language-tag negotiation module
(`edenai_apis/utils/languages.py`) and two provider adapters
(`apis/oneai/oneai_api.py`, `apis/amazon/amazon_text_api.py`).

The embedding is shallow: pure Python functions become Lean functions,
the external collaborators (constraint loader, `langcodes` fuzzy matcher,
`pycountry` lookup) become explicit function parameters, and the
unbounded retry loop becomes a fuel-indexed loop whose `none` result
means "still spinning".
-/

namespace EdenAI

/-! ## A star-free regular-expression engine

`check_language_format` in the source calls `re.fullmatch` on the pattern
`^[a-z]{2,3}(-[a-z]{2,3})?(-[A-Z][a-z]{3})?(-([A-Z]{2,3}|\d{3}))?`.
The pattern has no Kleene star, so a continuation-passing matcher over a
star-free regex syntax embeds `re.fullmatch` exactly (the leading `^`
anchor is a no-op under full-match semantics). -/

inductive RE where
  | eps : RE
  | cls : (Char → Bool) → RE
  | seq : RE → RE → RE
  | alt : RE → RE → RE

/-- `r?` — zero or one occurrence of `r`. -/
def RE.opt (r : RE) : RE := .alt .eps r

/-- The words matched by a regex, as an inductive predicate. -/
inductive RMatch : RE → List Char → Prop where
  | eps : RMatch .eps []
  | cls {p : Char → Bool} {c : Char} : p c = true → RMatch (.cls p) [c]
  | seq {r1 r2 : RE} {l1 l2 : List Char} :
      RMatch r1 l1 → RMatch r2 l2 → RMatch (.seq r1 r2) (l1 ++ l2)
  | altL {r1 r2 : RE} {l : List Char} : RMatch r1 l → RMatch (.alt r1 r2) l
  | altR {r1 r2 : RE} {l : List Char} : RMatch r2 l → RMatch (.alt r1 r2) l

/-- Executable continuation-passing matcher: `r.run l k` asks whether some
prefix of `l` matches `r` with the continuation `k` accepting the rest. -/
def RE.run : RE → List Char → (List Char → Bool) → Bool
  | .eps, l, k => k l
  | .cls _, [], _ => false
  | .cls p, c :: l, k => p c && k l
  | .seq r1 r2, l, k => r1.run l (fun rest => r2.run rest k)
  | .alt r1 r2, l, k => r1.run l k || r2.run l k

/-- Full-string matching, the semantics of Python `re.fullmatch`. -/
def reFullmatch (r : RE) (s : String) : Bool :=
  r.run s.toList (fun l => l.isEmpty)

/-! ### The concrete pattern of `check_language_format` -/

def lowerC : RE := .cls Char.isLower
def upperC : RE := .cls Char.isUpper
def digitC : RE := .cls Char.isDigit
def dashC : RE := .cls (fun c => c == '-')

/-- `x{2,3}` — two or three occurrences. -/
def rep23 (r : RE) : RE := .seq r (.seq r (RE.opt r))

/-- `[A-Z][a-z]{3}` — a script subtag. -/
def scriptRE : RE := .seq upperC (.seq lowerC (.seq lowerC lowerC))

/-- `[A-Z]{2,3}|\d{3}` — a region subtag. -/
def regionRE : RE :=
  .alt (rep23 upperC) (.seq digitC (.seq digitC digitC))

/-- The source pattern `^[a-z]{2,3}(-[a-z]{2,3})?(-[A-Z][a-z]{3})?(-([A-Z]{2,3}|\d{3}))?`. -/
def langFormatRE : RE :=
  .seq (rep23 lowerC)
    (.seq (RE.opt (.seq dashC (rep23 lowerC)))
      (.seq (RE.opt (.seq dashC scriptRE))
        (RE.opt (.seq dashC regionRE))))

/-- `check_language_format` from `utils/languages.py`: `re.fullmatch` of the
grammar pattern, boolean result.  (The Python function maps a `None` input to
`None`; we model the string-input behaviour.) -/
def check_language_format (iso_code : String) : Bool :=
  reFullmatch langFormatRE iso_code

/-! ### The grammar as the spec words it

Written from the spec's grammar `^[a-z]{2,3}(-[a-z]{2,3})?(-[A-Z][a-z]{3})?(-([A-Z]{2,3}|\d{3}))?$`:
a 2-3 lowercase language, then optional dash-prefixed extlang, script and
region segments. -/

def LangSegSpec (l : List Char) : Prop :=
  (l.length = 2 ∨ l.length = 3) ∧ ∀ c ∈ l, c.isLower = true

def ScriptSegSpec (l : List Char) : Prop :=
  ∃ c1 c2 c3 c4, l = [c1, c2, c3, c4] ∧ c1.isUpper = true ∧
    c2.isLower = true ∧ c3.isLower = true ∧ c4.isLower = true

def RegionSegSpec (l : List Char) : Prop :=
  ((l.length = 2 ∨ l.length = 3) ∧ ∀ c ∈ l, c.isUpper = true) ∨
    (l.length = 3 ∧ ∀ c ∈ l, c.isDigit = true)

/-- An optional segment: absent, or a dash followed by a segment of shape `P`. -/
def OptDashSeg (P : List Char → Prop) (l : List Char) : Prop :=
  l = [] ∨ ∃ t, l = '-' :: t ∧ P t

/-- The spec's anchored grammar, as a decomposition of the string. -/
def ValidLanguageFormatSpec (s : String) : Prop :=
  ∃ a b c d, s.toList = a ++ (b ++ (c ++ d)) ∧ LangSegSpec a ∧
    OptDashSeg LangSegSpec b ∧ OptDashSeg ScriptSegSpec c ∧
    OptDashSeg RegionSegSpec d

/-! ## Model of the langcodes tag parser

`provide_appropriate_language` inspects tags through `langcodes.Language.get`,
an external library.  On tags of the constrained grammar its `language`,
`script` and `territory` fields are determined by classifying the
dash-separated segments, which is what the model below does. -/

/-- Splits a character list at dashes; the semantics of Python `split("-")`. -/
def splitDash : List Char → List (List Char)
  | [] => [[]]
  | c :: rest =>
    if c = '-' then [] :: splitDash rest
    else
      match splitDash rest with
      | [] => [[c]]
      | h :: t => (c :: h) :: t

/-- The `language`, `script` and `territory` fields of a `langcodes.Language`
object, with subtags kept as character lists. -/
structure Language where
  language : List Char
  script : Option (List Char)
  territory : Option (List Char)
  deriving DecidableEq

/-- A four-letter capitalized segment, the shape of a script subtag. -/
def isScriptSegB (seg : List Char) : Bool :=
  match seg with
  | c :: rest => (seg.length == 4) && c.isUpper && rest.all Char.isLower
  | [] => false

/-- A 2-3 letter uppercase or 3-digit segment, the shape of a territory subtag. -/
def isTerritorySegB (seg : List Char) : Bool :=
  ((seg.length == 2 || seg.length == 3) && seg.all Char.isUpper) ||
    ((seg.length == 3) && seg.all Char.isDigit)

def classifySeg (acc : Language) (seg : List Char) : Language :=
  if isScriptSegB seg then { acc with script := some seg }
  else if isTerritorySegB seg then { acc with territory := some seg }
  else acc

/-- Models `langcodes.Language.get` on tags of the constrained grammar: the
first segment is the language, and later segments fill the script and
territory fields according to their shape. -/
def Language.get (tag : String) : Language :=
  match splitDash tag.toList with
  | [] => ⟨[], none, none⟩
  | lang :: rest => rest.foldl classifySeg ⟨lang, none, none⟩

/-! ## The negotiator (`utils/languages.py`) -/

/-- `has_language_contrains_script`: the requested tag carries a (truthy)
script and its language subtag equals the candidate's. -/
def has_language_contrains_script (iso_code selected_code_language : String) : Bool :=
  match (Language.get iso_code).script with
  | some sc =>
    !sc.isEmpty &&
      ((Language.get iso_code).language == (Language.get selected_code_language).language)
  | none => false

/-- `compare_language_and_region_code`: language and territory subtags both
equal between the requested tag and the candidate. -/
def compare_language_and_region_code (iso_code selected_code_language : String) : Bool :=
  ((Language.get iso_code).language == (Language.get selected_code_language).language) &&
    ((Language.get iso_code).territory == (Language.get selected_code_language).territory)

/-- `'-' in iso_code` in Python. -/
def strHasDash (s : String) : Bool := s.toList.contains '-'

/-- The tail of `provide_appropriate_language` (lines 186-193): the
compound-tag disambiguation applied to the matcher's result.  Python
truthiness of `selected_code_language` is non-`None` and nonempty. -/
def resolveAfterMatch (iso_code : String)
    (selected_code_language : Option String) : Option String :=
  match selected_code_language with
  | some sel =>
    if strHasDash iso_code && !sel.toList.isEmpty then
      if has_language_contrains_script iso_code sel then some sel
      else if compare_language_and_region_code iso_code sel then some sel
      else none
    else some sel
  | none => none

/-- Outcome of one negotiation call: the raised `SyntaxError`, or the
returned value. -/
inductive NegotiationOutcome where
  | malformed (iso_code : String)
  | resolved (tag : Option String)
  deriving DecidableEq

/-- The `while True` / `except RuntimeError` loop around
`closest_supported_match`, with the attempts of the unstable matcher given as
an oracle indexed by attempt number.  `none` means the loop is still spinning
after `fuel` iterations. -/
def retryLoop (oracle : Nat → Except Unit (Option String)) :
    Nat → Nat → Option (Option String)
  | _, 0 => none
  | i, fuel + 1 =>
    match oracle i with
    | .ok r => some r
    | .error _ => retryLoop oracle (i + 1) fuel

/-- `provide_appropriate_language` from `utils/languages.py`.  The constraint
loader and the fuzzy matcher are external collaborators, passed as functions;
the matcher also takes the attempt index since it may fail transiently with a
`RuntimeError` (the `Except.error` case). -/
def provide_appropriate_language (iso_code : String)
    (load_language_constraints : Unit → List String)
    (closest_supported_match : String → List String → Nat → Except Unit (Option String))
    (fuel : Nat) : Option NegotiationOutcome :=
  if check_language_format iso_code = false then
    some (NegotiationOutcome.malformed iso_code)
  else
    match retryLoop
        (fun i => closest_supported_match iso_code (load_language_constraints ()) i) 0 fuel with
    | none => none
    | some selected_code_language =>
      some (NegotiationOutcome.resolved (resolveAfterMatch iso_code selected_code_language))

/-! ## Conversion helpers (`utils/languages.py`) -/

/-- `get_code_from_language_name`; `Language.find` (external, may raise
`LookupError`, the `Except.error` case) is passed as a function. -/
def get_code_from_language_name (find : String → Except Unit String)
    (name : String) : String :=
  if name.toList.isEmpty then "Unknow"
  else
    match find name with
    | .error _ => "Unknow"
    | .ok output => output

/-- A `pycountry` language record: its `alpha_3` code and, when the object has
the attribute, its `alpha_2` code. -/
structure PycountryLanguage where
  alpha_3 : String
  alpha_2 : Option String
  deriving DecidableEq

/-- `convert_three_two_letters`; the `pycountry.languages.get(alpha_3=...)`
lookup and the `str(Language.get(...))` normalization of langcodes are
external collaborators, passed as functions.  (The Python function maps a
`None` input to `None`; we model the string-input behaviour.) -/
def convert_three_two_letters (pycountry_get : String → Option PycountryLanguage)
    (language_get_str : String → String) (iso_code : String) : String :=
  if strHasDash iso_code && (((splitDash iso_code.toList).headD []).length == 3) then
    language_get_str iso_code
  else if iso_code.length != 3 then iso_code
  else
    match pycountry_get iso_code with
    | none => language_get_str iso_code
    | some language =>
      match language.alpha_2 with
      | some a2 => a2
      | none => language.alpha_3

/-! ## OneAI sentiment adapter (`apis/oneai/oneai_api.py`) -/

inductive SentimentEnum where
  | POSITIVE
  | NEGATIVE
  | NEUTRAL
  deriving DecidableEq

/-- Per-segment label mapping in `text__sentiment_analysis`: value `NEG` maps
to NEGATIVE, anything else to POSITIVE. -/
def oneai_sentiment_of_label (value : String) : SentimentEnum :=
  if value = "NEG" then SentimentEnum.NEGATIVE else SentimentEnum.POSITIVE

/-- The signed accumulator `general_sentiment` built by the loop. -/
def oneai_general_sentiment_score (labels : List String) : Int :=
  labels.foldl
    (fun acc value =>
      acc + (if oneai_sentiment_of_label value = SentimentEnum.POSITIVE then 1 else -1))
    0

/-- The standardized `general_sentiment` of `text__sentiment_analysis`
(lines 180-186).  The source's net-positive branch reads
`general_sentiment = SentimentEnum.POSITIVE`: it rebinds the integer score
variable, not `general_sentiment_text`, so the returned
`general_sentiment_text` stays at its initial NEUTRAL value there. -/
def oneai_text_sentiment_general (labels : List String) : SentimentEnum :=
  let general_sentiment := oneai_general_sentiment_score labels
  let general_sentiment_text := SentimentEnum.NEUTRAL
  if general_sentiment < 0 then SentimentEnum.NEGATIVE
  else general_sentiment_text

/-! ## Amazon anonymization adapter (`apis/amazon/amazon_text_api.py`) -/

/-- One element of the provider response's `Entities` list.  `entityType`
models the response's `Type` field (`Type` is reserved in Lean). -/
structure PiiEntity where
  BeginOffset : Nat
  EndOffset : Nat
  entityType : String
  deriving DecidableEq

/-- Python slice `text[a:b]` for nonnegative bounds. -/
def pySlice (text : String) (a b : Nat) : String :=
  String.mk ((text.toList.drop a).take (b - a))

/-- The standardized result of `text__anonymization` (lines 176-182): the loop
over detected entities with `last_end` / `new_text` state. -/
def text_anonymization_result (text : String) (entities : List PiiEntity) : String :=
  (entities.foldl
    (fun acc entity =>
      (acc.1 ++ pySlice text acc.2 entity.BeginOffset ++ "<" ++ entity.entityType ++ ">",
        entity.EndOffset))
    ("", 0)).1

/-- The anonymized text as claim C10 words it: for each entity in order, the
input text from the previous entity's end offset to this entity's begin
offset followed by the placeholder, with nothing after the last entity. -/
def anonymizedSpec (text : String) (last_end : Nat) : List PiiEntity → String
  | [] => ""
  | entity :: rest =>
    pySlice text last_end entity.BeginOffset ++ "<" ++ entity.entityType ++ ">" ++
      anonymizedSpec text entity.EndOffset rest

end EdenAI

namespace EdenAI

/-! ## Correctness of the matcher -/

theorem rmatch_eps_iff {l : List Char} : RMatch .eps l ↔ l = [] := by
  constructor
  · intro h; cases h; rfl
  · rintro rfl; exact .eps

theorem rmatch_cls_iff {p : Char → Bool} {l : List Char} :
    RMatch (.cls p) l ↔ ∃ c, l = [c] ∧ p c = true := by
  constructor
  · intro h; cases h with
    | cls hp => exact ⟨_, rfl, hp⟩
  · rintro ⟨c, rfl, hp⟩; exact .cls hp

theorem rmatch_seq_iff {r1 r2 : RE} {l : List Char} :
    RMatch (.seq r1 r2) l ↔ ∃ l1 l2, l = l1 ++ l2 ∧ RMatch r1 l1 ∧ RMatch r2 l2 := by
  constructor
  · intro h; cases h with
    | seq h1 h2 => exact ⟨_, _, rfl, h1, h2⟩
  · rintro ⟨l1, l2, rfl, h1, h2⟩; exact .seq h1 h2

theorem rmatch_alt_iff {r1 r2 : RE} {l : List Char} :
    RMatch (.alt r1 r2) l ↔ RMatch r1 l ∨ RMatch r2 l := by
  constructor
  · intro h; cases h with
    | altL h => exact Or.inl h
    | altR h => exact Or.inr h
  · rintro (h | h)
    · exact .altL h
    · exact .altR h

theorem rmatch_opt_iff {r : RE} {l : List Char} :
    RMatch (RE.opt r) l ↔ l = [] ∨ RMatch r l := by
  rw [RE.opt, rmatch_alt_iff, rmatch_eps_iff]

/-- Soundness and completeness of the CPS matcher. -/
theorem run_eq_true_iff (r : RE) :
    ∀ (l : List Char) (k : List Char → Bool),
      r.run l k = true ↔ ∃ l1 l2, l = l1 ++ l2 ∧ RMatch r l1 ∧ k l2 = true := by
  induction r with
  | eps =>
    intro l k
    simp only [RE.run, rmatch_eps_iff]
    constructor
    · intro h; exact ⟨[], l, rfl, rfl, h⟩
    · rintro ⟨l1, l2, rfl, rfl, h⟩; simpa using h
  | cls p =>
    intro l k
    cases l with
    | nil =>
      simp only [RE.run, rmatch_cls_iff]
      constructor
      · intro h; exact absurd h (by simp)
      · rintro ⟨l1, l2, heq, ⟨c, rfl, _⟩, _⟩
        exact absurd heq (by simp)
    | cons c t =>
      simp only [RE.run, rmatch_cls_iff, Bool.and_eq_true]
      constructor
      · rintro ⟨hp, hk⟩; exact ⟨[c], t, rfl, ⟨c, rfl, hp⟩, hk⟩
      · rintro ⟨l1, l2, heq, ⟨c2, rfl, hp⟩, hk⟩
        obtain ⟨rfl, rfl⟩ : c2 = c ∧ l2 = t := by
          have := heq; simp only [List.cons_append, List.nil_append,
            List.cons.injEq] at this
          exact ⟨this.1.symm, this.2.symm⟩
        exact ⟨hp, hk⟩
  | seq r1 r2 ih1 ih2 =>
    intro l k
    simp only [RE.run]
    rw [ih1]
    constructor
    · rintro ⟨l1, rest, rfl, h1, hrun⟩
      rw [ih2] at hrun
      obtain ⟨l2, l3, rfl, h2, hk⟩ := hrun
      exact ⟨l1 ++ l2, l3, by rw [List.append_assoc], .seq h1 h2, hk⟩
    · rintro ⟨l12, l3, rfl, hseq, hk⟩
      rw [rmatch_seq_iff] at hseq
      obtain ⟨l1, l2, rfl, h1, h2⟩ := hseq
      refine ⟨l1, l2 ++ l3, by rw [List.append_assoc], h1, ?_⟩
      rw [ih2]
      exact ⟨l2, l3, rfl, h2, hk⟩
  | alt r1 r2 ih1 ih2 =>
    intro l k
    simp only [RE.run, Bool.or_eq_true, ih1, ih2, rmatch_alt_iff]
    constructor
    · rintro (⟨l1, l2, rfl, h, hk⟩ | ⟨l1, l2, rfl, h, hk⟩)
      · exact ⟨l1, l2, rfl, Or.inl h, hk⟩
      · exact ⟨l1, l2, rfl, Or.inr h, hk⟩
    · rintro ⟨l1, l2, rfl, h | h, hk⟩
      · exact Or.inl ⟨l1, l2, rfl, h, hk⟩
      · exact Or.inr ⟨l1, l2, rfl, h, hk⟩

theorem reFullmatch_iff {r : RE} {s : String} :
    reFullmatch r s = true ↔ RMatch r s.toList := by
  rw [reFullmatch, run_eq_true_iff]
  constructor
  · rintro ⟨l1, l2, heq, h, hk⟩
    have : l2 = [] := by simpa using hk
    subst this
    rw [List.append_nil] at heq
    rw [heq]
    exact h
  · intro h
    exact ⟨s.toList, [], by simp, h, by simp⟩

/-! ### The pattern's language, segment by segment -/

theorem rmatch_rep23 {p : Char → Bool} {l : List Char} :
    RMatch (rep23 (.cls p)) l ↔
      ((l.length = 2 ∨ l.length = 3) ∧ ∀ c ∈ l, p c = true) := by
  rw [rep23, rmatch_seq_iff]
  constructor
  · rintro ⟨l1, l2, rfl, h1, h2⟩
    rw [rmatch_cls_iff] at h1
    obtain ⟨c1, rfl, hp1⟩ := h1
    rw [rmatch_seq_iff] at h2
    obtain ⟨l2a, l2b, rfl, h2a, h2b⟩ := h2
    rw [rmatch_cls_iff] at h2a
    obtain ⟨c2, rfl, hp2⟩ := h2a
    rw [rmatch_opt_iff, rmatch_cls_iff] at h2b
    rcases h2b with rfl | ⟨c3, rfl, hp3⟩
    · refine ⟨Or.inl (by simp), ?_⟩
      intro c hc
      rcases (by simpa using hc : c = c1 ∨ c = c2) with rfl | rfl
      · exact hp1
      · exact hp2
    · refine ⟨Or.inr (by simp), ?_⟩
      intro c hc
      rcases (by simpa using hc : c = c1 ∨ c = c2 ∨ c = c3) with rfl | rfl | rfl
      · exact hp1
      · exact hp2
      · exact hp3
  · rintro ⟨hlen, hall⟩
    rcases l with _ | ⟨c1, _ | ⟨c2, _ | ⟨c3, _ | ⟨c4, t⟩⟩⟩⟩
    · rcases hlen with h | h <;> simp at h
    · rcases hlen with h | h <;> simp at h
    · exact ⟨[c1], [c2], rfl, rmatch_cls_iff.mpr ⟨c1, rfl, hall c1 (by simp)⟩,
        rmatch_seq_iff.mpr ⟨[c2], [], rfl,
          rmatch_cls_iff.mpr ⟨c2, rfl, hall c2 (by simp)⟩,
          rmatch_opt_iff.mpr (Or.inl rfl)⟩⟩
    · exact ⟨[c1], [c2, c3], rfl, rmatch_cls_iff.mpr ⟨c1, rfl, hall c1 (by simp)⟩,
        rmatch_seq_iff.mpr ⟨[c2], [c3], rfl,
          rmatch_cls_iff.mpr ⟨c2, rfl, hall c2 (by simp)⟩,
          rmatch_opt_iff.mpr (Or.inr (rmatch_cls_iff.mpr ⟨c3, rfl, hall c3 (by simp)⟩))⟩⟩
    · exfalso
      rcases hlen with h | h <;>
        (simp only [List.length_cons, List.length_nil] at h; omega)

theorem rmatch_lang_seg {l : List Char} :
    RMatch (rep23 lowerC) l ↔ LangSegSpec l := rmatch_rep23

theorem rmatch_script_seg {l : List Char} :
    RMatch scriptRE l ↔ ScriptSegSpec l := by
  simp only [scriptRE, upperC, lowerC]
  rw [rmatch_seq_iff]
  constructor
  · rintro ⟨l1, l2, rfl, h1, h2⟩
    rw [rmatch_cls_iff] at h1
    obtain ⟨c1, rfl, hp1⟩ := h1
    rw [rmatch_seq_iff] at h2
    obtain ⟨l2a, l2b, rfl, h2a, h2b⟩ := h2
    rw [rmatch_cls_iff] at h2a
    obtain ⟨c2, rfl, hp2⟩ := h2a
    rw [rmatch_seq_iff] at h2b
    obtain ⟨l3a, l3b, rfl, h3a, h3b⟩ := h2b
    rw [rmatch_cls_iff] at h3a
    obtain ⟨c3, rfl, hp3⟩ := h3a
    rw [rmatch_cls_iff] at h3b
    obtain ⟨c4, rfl, hp4⟩ := h3b
    exact ⟨c1, c2, c3, c4, rfl, hp1, hp2, hp3, hp4⟩
  · rintro ⟨c1, c2, c3, c4, rfl, hp1, hp2, hp3, hp4⟩
    exact ⟨[c1], [c2, c3, c4], rfl, rmatch_cls_iff.mpr ⟨c1, rfl, hp1⟩,
      rmatch_seq_iff.mpr ⟨[c2], [c3, c4], rfl, rmatch_cls_iff.mpr ⟨c2, rfl, hp2⟩,
        rmatch_seq_iff.mpr ⟨[c3], [c4], rfl, rmatch_cls_iff.mpr ⟨c3, rfl, hp3⟩,
          rmatch_cls_iff.mpr ⟨c4, rfl, hp4⟩⟩⟩⟩

theorem rmatch_region_seg {l : List Char} :
    RMatch regionRE l ↔ RegionSegSpec l := by
  simp only [regionRE, upperC, digitC]
  rw [rmatch_alt_iff, RegionSegSpec, rmatch_rep23]
  refine or_congr Iff.rfl ?_
  rw [rmatch_seq_iff]
  constructor
  · rintro ⟨l1, l2, rfl, h1, h2⟩
    rw [rmatch_cls_iff] at h1
    obtain ⟨c1, rfl, hp1⟩ := h1
    rw [rmatch_seq_iff] at h2
    obtain ⟨l2a, l2b, rfl, h2a, h2b⟩ := h2
    rw [rmatch_cls_iff] at h2a
    obtain ⟨c2, rfl, hp2⟩ := h2a
    rw [rmatch_cls_iff] at h2b
    obtain ⟨c3, rfl, hp3⟩ := h2b
    refine ⟨by simp, ?_⟩
    intro c hc
    rcases (by simpa using hc : c = c1 ∨ c = c2 ∨ c = c3) with rfl | rfl | rfl
    · exact hp1
    · exact hp2
    · exact hp3
  · rintro ⟨hlen, hall⟩
    rcases l with _ | ⟨c1, _ | ⟨c2, _ | ⟨c3, _ | ⟨c4, t⟩⟩⟩⟩
    · simp at hlen
    · simp at hlen
    · simp at hlen
    · exact ⟨[c1], [c2, c3], rfl, rmatch_cls_iff.mpr ⟨c1, rfl, hall c1 (by simp)⟩,
        rmatch_seq_iff.mpr ⟨[c2], [c3], rfl, rmatch_cls_iff.mpr ⟨c2, rfl, hall c2 (by simp)⟩,
          rmatch_cls_iff.mpr ⟨c3, rfl, hall c3 (by simp)⟩⟩⟩
    · simp only [List.length_cons, List.length_nil] at hlen
      omega

theorem rmatch_optdash {r : RE} {P : List Char → Prop}
    (hr : ∀ l, RMatch r l ↔ P l) {l : List Char} :
    RMatch (RE.opt (.seq dashC r)) l ↔ OptDashSeg P l := by
  rw [rmatch_opt_iff, rmatch_seq_iff, OptDashSeg]
  constructor
  · rintro (rfl | ⟨l1, l2, rfl, h1, h2⟩)
    · exact Or.inl rfl
    · rw [dashC, rmatch_cls_iff] at h1
      obtain ⟨c, rfl, hp⟩ := h1
      obtain rfl : c = '-' := by simpa using hp
      exact Or.inr ⟨l2, rfl, (hr l2).mp h2⟩
  · rintro (rfl | ⟨t, rfl, hp⟩)
    · exact Or.inl rfl
    · exact Or.inr ⟨['-'], t, rfl,
        rmatch_cls_iff.mpr ⟨'-', rfl, by simp⟩, (hr t).mpr hp⟩

/-- The format check accepts exactly the strings of the spec's grammar. -/
theorem check_language_format_iff {s : String} :
    check_language_format s = true ↔ ValidLanguageFormatSpec s := by
  rw [check_language_format, reFullmatch_iff, ValidLanguageFormatSpec, langFormatRE,
    rmatch_seq_iff]
  constructor
  · rintro ⟨a, x, hx, ha, hrest⟩
    rw [rmatch_seq_iff] at hrest
    obtain ⟨b, y, rfl, hb, hrest⟩ := hrest
    rw [rmatch_seq_iff] at hrest
    obtain ⟨c, d, rfl, hc, hd⟩ := hrest
    exact ⟨a, b, c, d, hx, rmatch_lang_seg.mp ha,
      (rmatch_optdash (fun _ => rmatch_lang_seg)).mp hb,
      (rmatch_optdash (fun _ => rmatch_script_seg)).mp hc,
      (rmatch_optdash (fun _ => rmatch_region_seg)).mp hd⟩
  · rintro ⟨a, b, c, d, heq, ha, hb, hc, hd⟩
    exact ⟨a, b ++ (c ++ d), heq, rmatch_lang_seg.mpr ha,
      rmatch_seq_iff.mpr ⟨b, c ++ d, rfl,
        (rmatch_optdash (fun _ => rmatch_lang_seg)).mpr hb,
        rmatch_seq_iff.mpr ⟨c, d, rfl,
          (rmatch_optdash (fun _ => rmatch_script_seg)).mpr hc,
          (rmatch_optdash (fun _ => rmatch_region_seg)).mpr hd⟩⟩⟩

/-! ## Helper lemmas about the negotiator -/

theorem classifySeg_script_len {acc : Language} {seg : List Char}
    (h : ∀ sc, acc.script = some sc → sc ≠ []) :
    ∀ sc, (classifySeg acc seg).script = some sc → sc ≠ [] := by
  intro sc hsc
  rw [classifySeg] at hsc
  split at hsc
  · rename_i hscript
    obtain rfl : seg = sc := by simpa using hsc
    intro hnil
    rw [hnil] at hscript
    simp [isScriptSegB] at hscript
  · split at hsc
    · exact h sc hsc
    · exact h sc hsc

theorem foldl_classifySeg_script {segs : List (List Char)} :
    ∀ {acc : Language}, (∀ sc, acc.script = some sc → sc ≠ []) →
      ∀ sc, (segs.foldl classifySeg acc).script = some sc → sc ≠ [] := by
  induction segs with
  | nil => intro acc h; exact h
  | cons seg rest ih => intro acc h; exact ih (classifySeg_script_len h)

/-- The parsed script of any tag is a nonempty segment. -/
theorem language_get_script_ne_nil {tag : String} {sc : List Char}
    (h : (Language.get tag).script = some sc) : sc ≠ [] := by
  rw [Language.get] at h
  split at h
  · simp at h
  · exact foldl_classifySeg_script (fun sc hsc => by simp at hsc) sc h

theorem toList_isEmpty_eq_false {s : String} (h : s ≠ "") :
    s.toList.isEmpty = false := by
  cases s with
  | mk data =>
    cases data with
    | nil => exact absurd rfl h
    | cons c t => rfl

theorem resolveAfterMatch_none (iso : String) :
    resolveAfterMatch iso none = none := rfl

theorem resolveAfterMatch_some_cases (iso c : String) :
    resolveAfterMatch iso (some c) = some c ∨ resolveAfterMatch iso (some c) = none := by
  simp only [resolveAfterMatch]
  by_cases h1 : (strHasDash iso && !c.toList.isEmpty) = true
  · rw [if_pos h1]
    by_cases h2 : has_language_contrains_script iso c = true
    · rw [if_pos h2]
      exact Or.inl rfl
    · rw [if_neg h2]
      by_cases h3 : compare_language_and_region_code iso c = true
      · rw [if_pos h3]
        exact Or.inl rfl
      · rw [if_neg h3]
        exact Or.inr rfl
  · rw [if_neg h1]
    exact Or.inl rfl

theorem retryLoop_ok :
    ∀ (fuel start k : Nat) (oracle : Nat → Except Unit (Option String)) (v : Option String),
      start ≤ k → k < start + fuel →
      (∀ i, start ≤ i → i < k → oracle i = Except.error ()) →
      oracle k = Except.ok v →
      retryLoop oracle start fuel = some v := by
  intro fuel
  induction fuel with
  | zero => intro start k oracle v h1 h2 _ _; omega
  | succ fuel ih =>
    intro start k oracle v h1 h2 herr hok
    rcases Nat.eq_or_lt_of_le h1 with rfl | hlt
    · simp only [retryLoop, hok]
    · simp only [retryLoop, herr start (le_refl start) hlt]
      exact ih (start + 1) k oracle v hlt (by omega)
        (fun i hi1 hi2 => herr i (by omega) hi2) hok

theorem retryLoop_some_ok :
    ∀ (fuel start : Nat) (oracle : Nat → Except Unit (Option String)) (v : Option String),
      retryLoop oracle start fuel = some v → ∃ j, oracle j = Except.ok v := by
  intro fuel
  induction fuel with
  | zero => intro start oracle v h; simp [retryLoop] at h
  | succ fuel ih =>
    intro start oracle v h
    simp only [retryLoop] at h
    cases hh : oracle start with
    | ok r =>
      rw [hh] at h
      simp only at h
      obtain rfl : r = v := by simpa using h
      exact ⟨start, hh⟩
    | error e =>
      rw [hh] at h
      simp only at h
      exact ih (start + 1) oracle v h

end EdenAI

namespace EdenAI

/-! ## The claims -/

/-- Claim C3: `check_language_format` accepts exactly the strings of the
anchored grammar `lang(-extlang)?(-Script)?(-Region)?`; in particular
`ENG`, `e-n` and `123` are rejected. -/
theorem C3_format_check_iff_grammar :
    (∀ s, check_language_format s = true ↔ ValidLanguageFormatSpec s) ∧
    check_language_format "ENG" = false ∧
    check_language_format "e-n" = false ∧
    check_language_format "123" = false :=
  ⟨fun _ => check_language_format_iff, by decide, by decide, by decide⟩

/-- Claim C2: a structurally malformed tag makes `provide_appropriate_language`
return the malformed-tag error for every constraint loader, matcher and fuel,
so the error precedes any constraint lookup and no value is returned. -/
theorem C2_malformed_raises_before_lookup :
    ∀ (iso_code : String) (loader : Unit → List String)
      (matcher : String → List String → Nat → Except Unit (Option String)) (fuel : Nat),
      check_language_format iso_code = false →
      provide_appropriate_language iso_code loader matcher fuel =
        some (NegotiationOutcome.malformed iso_code) := by
  intro iso loader matcher fuel h
  rw [provide_appropriate_language, if_pos h]

theorem C2_witness :
    provide_appropriate_language "not a tag!!" (fun _ => ["en"])
        (fun _ _ _ => Except.ok (some "en")) 5 =
      some (NegotiationOutcome.malformed "not a tag!!") :=
  C2_malformed_raises_before_lookup "not a tag!!" _ _ 5 (by decide)

/-- Counterexample to claim C7 as stated: on the empty name the code returns
the sentinel string `Unknow`, not `Unknown`. -/
theorem C7_counterexample :
    get_code_from_language_name (fun _ => Except.error ()) "" ≠ "Unknown" := by
  decide

/-- Claim C7 (amended): on every failing reverse lookup — an empty name, or a
name on which `Language.find` raises `LookupError` — the function returns the
sentinel string `Unknow` rather than propagating the lookup error. -/
theorem C7_unknow_sentinel :
    ∀ (find : String → Except Unit String) (name : String),
      name = "" ∨ find name = Except.error () →
      get_code_from_language_name find name = "Unknow" := by
  intro find name h
  rcases h with rfl | herr
  · rfl
  · rw [get_code_from_language_name]
    by_cases hn : name.toList.isEmpty = true
    · rw [if_pos hn]
    · rw [if_neg hn, herr]

theorem C7_witness :
    get_code_from_language_name (fun _ => Except.error ()) "French" = "Unknow" :=
  C7_unknow_sentinel _ "French" (Or.inr rfl)

/-- The signed score is the count of positive labels minus the count of
negative ones. -/
theorem oneai_score_eq (labels : List String) :
    oneai_general_sentiment_score labels =
      (labels.countP (fun v => !(v == "NEG")) : Int) -
        (labels.countP (fun v => v == "NEG") : Int) := by
  have key : ∀ (l : List String) (acc : Int),
      l.foldl
        (fun acc value =>
          acc + (if oneai_sentiment_of_label value = SentimentEnum.POSITIVE then 1 else -1))
        acc =
        acc + ((l.countP (fun v => !(v == "NEG")) : Int) -
          (l.countP (fun v => v == "NEG") : Int)) := by
    intro l
    induction l with
    | nil => intro acc; simp
    | cons v t ih =>
      intro acc
      rw [List.foldl_cons, ih, List.countP_cons, List.countP_cons]
      by_cases hv : v = "NEG"
      · subst hv
        simp [oneai_sentiment_of_label]
        omega
      · have hb : (v == "NEG") = false := by simpa using hv
        simp [oneai_sentiment_of_label, hv, hb]
        omega
  rw [oneai_general_sentiment_score, key, zero_add]

/-- Claim C9: with strictly more positive than negative segment labels the
net-positive branch of `text__sentiment_analysis` rebinds the integer
accumulator, so the returned standardized sentiment is NEUTRAL, not
POSITIVE. -/
theorem C9_net_positive_returns_neutral :
    ∀ labels : List String,
      labels.countP (fun v => v == "NEG") < labels.countP (fun v => !(v == "NEG")) →
      oneai_text_sentiment_general labels = SentimentEnum.NEUTRAL ∧
        oneai_text_sentiment_general labels ≠ SentimentEnum.POSITIVE := by
  intro labels h
  have hscore : 0 < oneai_general_sentiment_score labels := by
    rw [oneai_score_eq]
    omega
  have hmain : oneai_text_sentiment_general labels = SentimentEnum.NEUTRAL := by
    show (if oneai_general_sentiment_score labels < 0 then SentimentEnum.NEGATIVE
      else SentimentEnum.NEUTRAL) = SentimentEnum.NEUTRAL
    rw [if_neg (by omega)]
  refine ⟨hmain, ?_⟩
  rw [hmain]
  decide

theorem C9_witness :
    oneai_text_sentiment_general ["POS"] = SentimentEnum.NEUTRAL :=
  (C9_net_positive_returns_neutral ["POS"] (by decide)).1

/-- Unrolling the anonymization fold: the accumulated prefix comes out front. -/
theorem anonymization_foldl_eq (text : String) :
    ∀ (entities : List PiiEntity) (acc : String) (last_end : Nat),
      (entities.foldl
        (fun acc entity =>
          (acc.1 ++ pySlice text acc.2 entity.BeginOffset ++ "<" ++ entity.entityType ++ ">",
            entity.EndOffset))
        (acc, last_end)).1 =
        acc ++ anonymizedSpec text last_end entities := by
  intro entities
  induction entities with
  | nil =>
    intro acc last_end
    simp [anonymizedSpec]
  | cons e rest ih =>
    intro acc last_end
    rw [List.foldl_cons, anonymizedSpec, ih]
    simp [String.append_assoc]

/-- Claim C10: the standardized anonymization result is, for each detected
entity in order, the input text between the previous end offset and this
begin offset followed by the `<Type>` placeholder, with everything after the
last entity's end offset omitted; with zero entities the result is the empty
string, not the original text. -/
theorem C10_anonymization_concatenation :
    ∀ (text : String) (entities : List PiiEntity),
      text_anonymization_result text entities = anonymizedSpec text 0 entities ∧
      text_anonymization_result text [] = "" := by
  intro text entities
  refine ⟨?_, rfl⟩
  rw [text_anonymization_result, anonymization_foldl_eq text entities "" 0]
  simp

/-- Claim C1: for a compound requested tag and a non-null candidate from the
matcher, the negotiator returns the candidate iff the requested tag carries a
script subtag and the language subtags agree, or the language and territory
subtags both agree; otherwise it returns null — in particular requesting
`pt-BR` against `pt-PT` yields null. -/
theorem C1_compound_tag_disambiguation :
    (∀ iso c, strHasDash iso = true → c ≠ "" →
      ((resolveAfterMatch iso (some c) = some c ↔
          ((Language.get iso).script.isSome = true ∧
            (Language.get iso).language = (Language.get c).language) ∨
          ((Language.get iso).language = (Language.get c).language ∧
            (Language.get iso).territory = (Language.get c).territory)) ∧
        (resolveAfterMatch iso (some c) = some c ∨
          resolveAfterMatch iso (some c) = none))) ∧
    resolveAfterMatch "pt-BR" (some "pt-PT") = none := by
  constructor
  · intro iso c hdash hc
    refine ⟨?_, resolveAfterMatch_some_cases iso c⟩
    have hne : c.toList.isEmpty = false := toList_isEmpty_eq_false hc
    have hcond : (strHasDash iso && !c.toList.isEmpty) = true := by
      rw [hdash, hne]
      rfl
    simp only [resolveAfterMatch]
    rw [if_pos hcond]
    by_cases hscr : has_language_contrains_script iso c = true
    · rw [if_pos hscr]
      have hA : (Language.get iso).script.isSome = true ∧
          (Language.get iso).language = (Language.get c).language := by
        rw [has_language_contrains_script] at hscr
        cases hsc : (Language.get iso).script with
        | none => rw [hsc] at hscr; simp at hscr
        | some sc =>
          rw [hsc] at hscr
          simp only [Bool.and_eq_true, beq_iff_eq] at hscr
          exact ⟨rfl, hscr.2⟩
      exact ⟨fun _ => Or.inl hA, fun _ => rfl⟩
    · rw [if_neg hscr]
      by_cases hcmp : compare_language_and_region_code iso c = true
      · rw [if_pos hcmp]
        rw [compare_language_and_region_code] at hcmp
        simp only [Bool.and_eq_true, beq_iff_eq] at hcmp
        exact ⟨fun _ => Or.inr hcmp, fun _ => rfl⟩
      · rw [if_neg hcmp]
        constructor
        · intro h
          exact absurd h (by simp)
        · rintro (⟨hss, hl⟩ | ⟨hl, ht⟩)
          · exfalso
            apply hscr
            rw [has_language_contrains_script]
            obtain ⟨sc, hsc⟩ := Option.isSome_iff_exists.mp hss
            rw [hsc]
            have hscn : sc ≠ [] := language_get_script_ne_nil hsc
            cases sc with
            | nil => exact absurd rfl hscn
            | cons a t => simp [hl]
          · exfalso
            apply hcmp
            rw [compare_language_and_region_code]
            simp [hl, ht]
  · decide

theorem C1_witness :
    resolveAfterMatch "zh-Hant" (some "zh") = some "zh" :=
  ((C1_compound_tag_disambiguation.1 "zh-Hant" "zh" (by decide)
    (by decide)).1).mpr (Or.inl ⟨by decide, by decide⟩)

/-- Claim C4: transient matcher errors are swallowed and retried, never
surfaced — if the first `k` attempts raise and attempt `k` returns cleanly,
the retry loop yields that clean result and the negotiator resolves normally
— while a clean no-match on the first attempt ends the loop at once with
null, not retried. -/
theorem C4_transient_errors_retried :
    (∀ (iso : String) (loader : Unit → List String)
      (matcher : String → List String → Nat → Except Unit (Option String))
      (k : Nat) (v : Option String),
      check_language_format iso = true →
      (∀ i, i < k → matcher iso (loader ()) i = Except.error ()) →
      matcher iso (loader ()) k = Except.ok v →
      retryLoop (fun i => matcher iso (loader ()) i) 0 (k + 1) = some v ∧
        provide_appropriate_language iso loader matcher (k + 1) =
          some (NegotiationOutcome.resolved (resolveAfterMatch iso v))) ∧
    (∀ oracle : Nat → Except Unit (Option String),
      oracle 0 = Except.ok none → retryLoop oracle 0 1 = some none) := by
  constructor
  · intro iso loader matcher k v hvalid herr hok
    have hloop : retryLoop (fun i => matcher iso (loader ()) i) 0 (k + 1) = some v :=
      retryLoop_ok (k + 1) 0 k _ v (Nat.zero_le k) (by omega)
        (fun i _ hi => herr i hi) hok
    refine ⟨hloop, ?_⟩
    rw [provide_appropriate_language, if_neg (by rw [hvalid]; simp), hloop]
  · intro oracle h0
    simp only [retryLoop, h0]

theorem C4_witness :
    retryLoop
        (fun i => (fun (_ : String) (_ : List String) (i : Nat) =>
          if i < 2 then Except.error () else Except.ok (some "fr")) "fr"
            ((fun (_ : Unit) => ["fr"]) ()) i) 0 3 =
      some (some "fr") ∧
    provide_appropriate_language "fr" (fun _ => ["fr"])
        (fun _ _ i => if i < 2 then Except.error () else Except.ok (some "fr")) 3 =
      some (NegotiationOutcome.resolved (resolveAfterMatch "fr" (some "fr"))) :=
  C4_transient_errors_retried.1 "fr" (fun _ => ["fr"])
    (fun _ _ i => if i < 2 then Except.error () else Except.ok (some "fr")) 2 (some "fr")
    (by decide) (fun i hi => by interval_cases i <;> rfl) rfl

/-- Claim C5: for a simple (dash-free) requested tag the negotiator returns
exactly the matcher's result, null included; and a clean no-match resolves to
null as a normal outcome, with no error raised. -/
theorem C5_simple_tag_passthrough :
    (∀ iso sel, strHasDash iso = false → resolveAfterMatch iso sel = sel) ∧
    (∀ (iso : String) (loader : Unit → List String)
      (matcher : String → List String → Nat → Except Unit (Option String)),
      check_language_format iso = true →
      matcher iso (loader ()) 0 = Except.ok none →
      provide_appropriate_language iso loader matcher 1 =
        some (NegotiationOutcome.resolved none)) := by
  constructor
  · intro iso sel hdash
    cases sel with
    | none => rfl
    | some c =>
      simp only [resolveAfterMatch]
      rw [if_neg]
      rw [hdash]
      simp
  · intro iso loader matcher hvalid h0
    have hloop : retryLoop (fun i => matcher iso (loader ()) i) 0 1 = some none := by
      simp only [retryLoop, h0]
    rw [provide_appropriate_language, if_neg (by rw [hvalid]; simp), hloop]
    rfl

theorem C5_witness :
    resolveAfterMatch "fr" (some "fr") = some "fr" ∧
    provide_appropriate_language "xx-YY" (fun _ => [])
        (fun _ _ _ => Except.ok none) 1 =
      some (NegotiationOutcome.resolved none) :=
  ⟨C5_simple_tag_passthrough.1 "fr" (some "fr") (by decide),
    C5_simple_tag_passthrough.2 "xx-YY" (fun _ => []) (fun _ _ _ => Except.ok none)
      (by decide) rfl⟩

/-- Claim C6: assuming the closest-match primitive only ever returns null or
an element of its candidate list, any non-null tag the negotiator returns is
a member of the loaded constraint list — no new tag value is constructed. -/
theorem C6_resolved_tag_member :
    ∀ (iso : String) (loader : Unit → List String)
      (matcher : String → List String → Nat → Except Unit (Option String))
      (fuel : Nat) (t : String),
      (∀ i v, matcher iso (loader ()) i = Except.ok v →
        v = none ∨ ∃ c, v = some c ∧ c ∈ loader ()) →
      provide_appropriate_language iso loader matcher fuel =
        some (NegotiationOutcome.resolved (some t)) →
      t ∈ loader () := by
  intro iso loader matcher fuel t hmatch hres
  rw [provide_appropriate_language] at hres
  by_cases hv : check_language_format iso = false
  · rw [if_pos hv] at hres
    simp at hres
  · rw [if_neg hv] at hres
    cases hloop : retryLoop (fun i => matcher iso (loader ()) i) 0 fuel with
    | none => rw [hloop] at hres; simp at hres
    | some sel =>
      rw [hloop] at hres
      obtain ⟨j, hj⟩ := retryLoop_some_ok fuel 0 _ sel hloop
      have hj2 : matcher iso (loader ()) j = Except.ok sel := hj
      rcases hmatch j sel hj2 with rfl | ⟨c, rfl, hcmem⟩
      · simp [resolveAfterMatch] at hres
      · have hr : resolveAfterMatch iso (some c) = some t := by
          simpa using hres
        rcases resolveAfterMatch_some_cases iso c with hcase | hcase
        · rw [hcase] at hr
          obtain rfl : c = t := by simpa using hr
          exact hcmem
        · rw [hcase] at hr
          simp at hr

theorem C6_witness :
    ("en" : String) ∈ ["en"] :=
  C6_resolved_tag_member "en" (fun _ => ["en"])
    (fun _ _ _ => Except.ok (some "en")) 1 "en"
    (fun i v h => by
      obtain rfl : some "en" = v := by injection h
      exact Or.inr ⟨"en", rfl, by simp⟩)
    (by decide)

/-- Claim C8: `convert_three_two_letters` is total on strings and returns, in
order of the source's branches: the langcodes normalization for a compound
tag with a three-letter first segment; otherwise the input unchanged when its
length is not 3 (dashed or not); and otherwise, for a length-3 code, the
`pycountry` two-letter equivalent when one exists, the record's three-letter
code when the record lacks a two-letter attribute, and the langcodes
normalization when `pycountry` has no entry.  The first branch's condition
appears verbatim as the boolean guard, so the five conjuncts cover every
input. -/
theorem C8_convert_total_cases :
    ∀ (pycountry_get : String → Option PycountryLanguage)
      (language_get_str : String → String) (iso_code : String),
      ((strHasDash iso_code &&
          (((splitDash iso_code.toList).headD []).length == 3)) = true →
        convert_three_two_letters pycountry_get language_get_str iso_code =
          language_get_str iso_code) ∧
      ((strHasDash iso_code &&
          (((splitDash iso_code.toList).headD []).length == 3)) = false →
        iso_code.length ≠ 3 →
        convert_three_two_letters pycountry_get language_get_str iso_code = iso_code) ∧
      (∀ l a2, (strHasDash iso_code &&
          (((splitDash iso_code.toList).headD []).length == 3)) = false →
        iso_code.length = 3 →
        pycountry_get iso_code = some l → l.alpha_2 = some a2 →
        convert_three_two_letters pycountry_get language_get_str iso_code = a2) ∧
      (∀ l, (strHasDash iso_code &&
          (((splitDash iso_code.toList).headD []).length == 3)) = false →
        iso_code.length = 3 →
        pycountry_get iso_code = some l → l.alpha_2 = none →
        convert_three_two_letters pycountry_get language_get_str iso_code = l.alpha_3) ∧
      ((strHasDash iso_code &&
          (((splitDash iso_code.toList).headD []).length == 3)) = false →
        iso_code.length = 3 →
        pycountry_get iso_code = none →
        convert_three_two_letters pycountry_get language_get_str iso_code =
          language_get_str iso_code) := by
  intro pyc lgs iso
  refine ⟨?_, ?_, ?_, ?_, ?_⟩
  · intro hb1
    rw [convert_three_two_letters, if_pos hb1]
  · intro hb1 hlen
    rw [convert_three_two_letters, if_neg (by rw [hb1]; simp), if_pos]
    simpa using hlen
  · intro l a2 hb1 hlen hpyc ha2
    rw [convert_three_two_letters, if_neg (by rw [hb1]; simp),
      if_neg (by simp [hlen]), hpyc]
    simp [ha2]
  · intro l hb1 hlen hpyc ha2
    rw [convert_three_two_letters, if_neg (by rw [hb1]; simp),
      if_neg (by simp [hlen]), hpyc]
    simp [ha2]
  · intro hb1 hlen hpyc
    rw [convert_three_two_letters, if_neg (by rw [hb1]; simp),
      if_neg (by simp [hlen]), hpyc]

theorem C8_witness :
    convert_three_two_letters
        (fun s => if s = "eng" then some ⟨"eng", some "en"⟩ else none)
        (fun s => s) "eng" = "en" ∧
    convert_three_two_letters (fun _ => none) (fun s => s) "pt-BR" = "pt-BR" ∧
    convert_three_two_letters (fun _ => none) (fun s => s) "fr" = "fr" :=
  ⟨(C8_convert_total_cases
      (fun s => if s = "eng" then some ⟨"eng", some "en"⟩ else none)
      (fun s => s) "eng").2.2.1 ⟨"eng", some "en"⟩ "en" (by decide) (by decide)
      (by simp) rfl,
    (C8_convert_total_cases (fun _ => none) (fun s => s) "pt-BR").2.1
      (by decide) (by decide),
    (C8_convert_total_cases (fun _ => none) (fun s => s) "fr").2.1
      (by decide) (by decide)⟩

end EdenAI
